import Mathlib

/-!
Verification of the automation-project repository against its specification.

The repository is a React single-page application.  The stateful components
are embedded shallowly: each React component's `useState` cells become the
fields of a Lean structure, each event handler becomes a pure state
transition, and the `async` workflow loop of `AutomationDashboard.handleStart`
is modelled as a small-step transition system whose `runStep` event executes
one iteration of the `for` loop (the code between two `await` yield points),
so that user events (Start/Pause/Stop/Reset clicks) can interleave with the
iterations of an in-flight run exactly as the browser event loop allows.
-/

/-- JavaScript whitespace as far as this code base can produce it: space,
tab, newline, carriage return. -/
def isJsWhitespace (c : Char) : Bool :=
  c == ' ' || c == '\t' || c == '\n' || c == '\r'

/-- JavaScript `String.prototype.trim()`: strip leading and trailing
whitespace.  Written structurally over the character list so that it
evaluates inside the kernel. -/
def jsTrim (s : String) : String :=
  String.mk
    (((s.data.dropWhile isJsWhitespace).reverse.dropWhile
        isJsWhitespace).reverse)

namespace Dashboard

/-- The static mode table of `AutomationDashboard.getWorkflowSteps`
(AutomationDashboard.tsx, lines 70-87): a `switch` from the workflow-mode
string to the ordered list of stage names, with `[]` for unknown modes. -/
def getWorkflowSteps (workflow : String) : List String :=
  match workflow with
  | "full_auto" => ["Generate Script", "Create Video", "Upload to YouTube"]
  | "script_only" => ["Generate Script"]
  | "video_only" => ["Create Video"]
  | "upload_only" => ["Upload to YouTube"]
  | "script_and_video" => ["Generate Script", "Create Video"]
  | "video_and_upload" => ["Create Video", "Upload to YouTube"]
  | _ => []

/-- The `value` fields of the six entries of the `workflowModes` array
(AutomationDashboard.tsx, lines 28-35). -/
def workflowModeValues : List String :=
  ["full_auto", "script_only", "video_only", "upload_only",
   "script_and_video", "video_and_upload"]

/-- JavaScript `String.prototype.includes` for a non-empty search string:
`sub` occurs as a substring of `s` exactly when splitting on it produces
more than one piece. -/
def jsIncludes (s sub : String) : Bool :=
  (s.splitOn sub).length != 1

/-- One in-flight invocation of the `async` function `handleStart`
(AutomationDashboard.tsx, lines 37-68): the stage list it iterates over and
the index of the next iteration of its `for` loop. -/
structure RunLoop where
  steps : List String
  idx : Nat
deriving DecidableEq

/-- The `useState` cells of `AutomationDashboard` (lines 22-26), together
with the list of in-flight `handleStart` loops (the coroutines suspended at
an `await`, in the order they were started).  React state the claims do not
mention (`activeWorkflow`) is passed as the event argument instead. -/
structure DashState where
  isRunning : Bool
  progress : ℚ
  currentStep : String
  videosCreated : Nat
  videosUploaded : Nat
  runs : List RunLoop
deriving DecidableEq

/-- The initial component state (`useState` initialisers, lines 22-26). -/
def initDash : DashState :=
  { isRunning := false
    progress := 0
    currentStep := ""
    videosCreated := 0
    videosUploaded := 0
    runs := [] }

/-- The events the component reacts to: the four button clicks (a click is
only deliverable when its button is enabled, lines 139-173) and the resumption
of in-flight loop number `i` at its `await` (line 49). -/
inductive DashEvent
  | startClick (mode : String)
  | pauseClick
  | stopClick
  | resetClick
  | runStep (i : Nat)
deriving DecidableEq

/-- Observable notifications of a transition: run started, a stage began
executing (`onLog` of `Executing step` / `setCurrentStep`, lines 45-46),
paused, stopped, dashboard reset, run completed (epilogue, lines 65-67). -/
inductive DashLabel
  | started (mode : String)
  | stageStarted (stage : String)
  | paused
  | stopped
  | reset
  | completed
deriving DecidableEq

/-- Counter updates of one loop iteration: the `if`/`else if` chain on
`steps[i].includes(...)` (lines 54-62). -/
def stageCounters (stage : String) (vc vu : Nat) : Nat × Nat :=
  if jsIncludes stage "Script" then (vc, vu)
  else if jsIncludes stage "Video" then (vc + 1, vu)
  else if jsIncludes stage "Upload" then (vc, vu + 1)
  else (vc, vu)

/-- One transition of the dashboard, with its observable labels.  `none`
means the event cannot occur in this state (its button is disabled).
`startClick` mirrors `handleStart` lines 38-43 (the Start button is disabled
while `isRunning`, line 142); `runStep i` mirrors one iteration of the `for`
loop, lines 44-63, followed by the epilogue, lines 65-67, when it was the
last iteration; the loop itself never consults `isRunning`, so `runStep`
carries no `isRunning` guard, exactly as in the source. -/
def dashStepL (s : DashState) : DashEvent → Option (DashState × List DashLabel)
  | .startClick mode =>
    if s.isRunning then none
    else
      some ({ s with
                isRunning := true
                progress := 0
                runs := s.runs ++ [⟨getWorkflowSteps mode, 0⟩] },
            [.started mode])
  | .pauseClick =>
    if s.isRunning then some ({ s with isRunning := false }, [.paused])
    else none
  | .stopClick =>
    if s.isRunning then
      some ({ s with
                isRunning := false
                progress := 0
                currentStep := "" },
            [.stopped])
    else none
  | .resetClick =>
    some ({ s with
              progress := 0
              currentStep := ""
              videosCreated := 0
              videosUploaded := 0 },
          [.reset])
  | .runStep i =>
    match s.runs.get? i with
    | none => none
    | some rl =>
      match rl.steps.get? rl.idx with
      | none =>
        some ({ s with
                  isRunning := false
                  currentStep := "Completed"
                  runs := s.runs.eraseIdx i },
              [.completed])
      | some stage =>
        let counters := stageCounters stage s.videosCreated s.videosUploaded
        let prog : ℚ := ((rl.idx + 1 : ℚ) / (rl.steps.length : ℚ)) * 100
        if rl.idx + 1 = rl.steps.length then
          some ({ s with
                    progress := prog
                    currentStep := "Completed"
                    videosCreated := counters.1
                    videosUploaded := counters.2
                    isRunning := false
                    runs := s.runs.eraseIdx i },
                [.stageStarted stage, .completed])
        else
          some ({ s with
                    progress := prog
                    currentStep := stage
                    videosCreated := counters.1
                    videosUploaded := counters.2
                    runs := s.runs.set i ⟨rl.steps, rl.idx + 1⟩ },
                [.stageStarted stage])

/-- Run a list of events from a state, collecting the emitted labels;
`none` when some event in the list is not enabled when its turn comes. -/
def dashTrace (s : DashState) : List DashEvent → Option (DashState × List DashLabel)
  | [] => some (s, [])
  | e :: es =>
    match dashStepL s e with
    | none => none
    | some (t, ls) =>
      match dashTrace t es with
      | none => none
      | some (u, ms) => some (u, ls ++ ms)

/-- The stage-start events of a label sequence, in order. -/
def stageStarts (ls : List DashLabel) : List String :=
  ls.filterMap fun l =>
    match l with
    | .stageStarted stage => some stage
    | _ => none

/-- Whether some stage-start label occurs strictly after some stop label. -/
def hasStageStartAfterStop : List DashLabel → Bool
  | [] => false
  | .stopped :: rest =>
    rest.any (fun l => match l with | .stageStarted _ => true | _ => false)
      || hasStageStartAfterStop rest
  | _ :: rest => hasStageStartAfterStop rest

/-- The canonical uninterrupted schedule of one run: a Start click followed
by one loop iteration per stage of the selected mode. -/
def canonicalRun (mode : String) : List DashEvent :=
  .startClick mode ::
    List.replicate (getWorkflowSteps mode).length (.runStep 0)

/-- The Success Rate shown in the Statistics card (AutomationDashboard.tsx,
line 211): `videosCreated > 0 ? Math.round((videosUploaded / videosCreated)
* 100) : 0`.  JavaScript `Math.round x` is the floor of `x + 1/2`, which is
`round` on `ℚ` for the non-negative values that arise here. -/
def successRate (videosCreated videosUploaded : Nat) : ℤ :=
  if videosCreated > 0 then
    round (((videosUploaded : ℚ) / (videosCreated : ℚ)) * 100)
  else 0

end Dashboard

namespace UploadManager

/-- One entry of the upload history (`UploadedVideo` interface,
UploadManager.tsx, lines 19-25); the status union type is kept as the
literal strings the code uses. -/
structure UploadedVideo where
  id : String
  title : String
  uploadedAt : String
  status : String
  scheduledFor : Option String
deriving DecidableEq

/-- The `uploadDetails` state record (UploadManager.tsx, lines 29-36). -/
structure UploadDetails where
  title : String
  description : String
  tags : String
  visibility : String
  category : String
  thumbnail : Option String
deriving DecidableEq

/-- The `scheduleSettings` state record (UploadManager.tsx, lines 37-43). -/
structure ScheduleSettings where
  scheduleVideo : Bool
  timeSlot : String
  timezone : String
  autoTags : Bool
  autoCaptions : Bool
deriving DecidableEq

/-- The `useState` cells of `UploadManager` (lines 28-60); a selected file
is represented by its name. -/
structure UploadState where
  videoFile : Option String
  uploadDetails : UploadDetails
  scheduleSettings : ScheduleSettings
  isUploading : Bool
  uploadProgress : ℚ
  uploadedVideos : List UploadedVideo
deriving DecidableEq

/-- The reset value of the form (UploadManager.tsx, lines 143-150), also its
initial value (lines 29-36). -/
def initialUploadDetails : UploadDetails :=
  { title := ""
    description := ""
    tags := ""
    visibility := "public"
    category := "Entertainment"
    thumbnail := none }

/-- `handleUpload` (UploadManager.tsx, lines 86-151), run to completion as a
pure state transition.  The two validation guards return the state
unchanged before any cell is written (lines 87-95).  Otherwise the simulated
upload runs and the epilogue leaves `isUploading = false` and
`uploadProgress = 0` (lines 135-136), prepends the new history entry
(lines 125-134) and resets the form (lines 142-150).  The ambient values
`Date.now()`, `toLocaleString()` and `toDateString()` are passed in as
`nowMs`, `nowStr` and `dateStr`. -/
def handleUpload (nowMs nowStr dateStr : String) (s : UploadState) : UploadState :=
  if s.videoFile = none then s
  else if jsTrim s.uploadDetails.title = "" then s
  else
    let newVideo : UploadedVideo :=
      { id := "vid_" ++ nowMs
        title := s.uploadDetails.title
        uploadedAt := nowStr
        status := if s.scheduleSettings.scheduleVideo then "scheduled" else "uploaded"
        scheduledFor :=
          if s.scheduleSettings.scheduleVideo then
            some (dateStr ++ " " ++ s.scheduleSettings.timeSlot)
          else none }
    { s with
        uploadedVideos := newVideo :: s.uploadedVideos
        isUploading := false
        uploadProgress := 0
        videoFile := none
        uploadDetails := initialUploadDetails }

/-- The two seeded history entries (UploadManager.tsx, lines 46-60). -/
def initialUploadedVideos : List UploadedVideo :=
  [{ id := "vid_001"
     title := "AI Productivity Tips"
     uploadedAt := "2024-01-15 14:30"
     status := "uploaded"
     scheduledFor := none },
   { id := "vid_002"
     title := "Future of Technology"
     uploadedAt := "2024-01-14 09:15"
     status := "scheduled"
     scheduledFor := some "2024-01-16 12:00" }]

end UploadManager

namespace ScriptGenerator

/-- `handleAddKeyword` (ScriptGenerator.tsx, lines 91-96): append the
trimmed keyword only when it is non-blank and not already present. -/
def handleAddKeyword (keywords : List String) (newKeyword : String) : List String :=
  if jsTrim newKeyword ≠ "" ∧ jsTrim newKeyword ∉ keywords then
    keywords ++ [jsTrim newKeyword]
  else keywords

/-- `handleRemoveKeyword` (ScriptGenerator.tsx, lines 98-100): drop every
occurrence of the clicked keyword. -/
def handleRemoveKeyword (keywords : List String) (keyword : String) : List String :=
  keywords.filter (fun k => k != keyword)

/-- A user interaction with the keyword editor. -/
inductive KeywordOp
  | add (s : String)
  | remove (s : String)

/-- Dispatch one keyword interaction to its handler. -/
def keywordStep (ks : List String) : KeywordOp → List String
  | .add s => handleAddKeyword ks s
  | .remove s => handleRemoveKeyword ks s

/-- The keyword list reached from the initial `useState([])` (line 23) by a
sequence of add/remove interactions. -/
def applyKeywordOps (ops : List KeywordOp) : List String :=
  ops.foldl keywordStep []

end ScriptGenerator

namespace RetryPolicy

/-- Modelled from the spec: the classified outcome of one attempt of the
wrapped operation (spec section 4.5); the `RetryPolicy.Run` implementation
is not part of the repository sources (only `config.retryAttempts` is
declared, ConfigManager.tsx line 49). -/
inductive AttemptOutcome
  | success
  | retryableFailure
  | fatalFailure
deriving DecidableEq

/-- Modelled from the spec: the terminal outcome of `RetryPolicy.Run`. -/
inductive RetryResult
  | succeeded
  | fatalAborted
  | exhausted
deriving DecidableEq

/-- Modelled from the spec: the capped exponential backoff of section 4.5,
`delay = baseDelay * 2 ^ (attempt - 1)`, capped at `cap`, slept before retry
attempt number `attempt`. -/
def backoffDelay (baseDelay cap attempt : Nat) : Nat :=
  min (baseDelay * 2 ^ (attempt - 1)) cap

/-- Modelled from the spec: what a run of `RetryPolicy.Run` did — how many
attempts it performed, the backoff delays it slept between them, and its
result. -/
structure RunTrace where
  attemptsUsed : Nat
  delays : List Nat
  result : RetryResult
deriving DecidableEq

/-- Modelled from the spec: what one classified attempt contributes to the
run.  Success returns after this attempt; a fatal failure aborts
immediately after it; a retryable failure consumes the attempt and, when
budget remains, sleeps the backoff delay before the next attempt and
continues as `t`, the run of the remaining budget. -/
def retryStep (baseDelay cap attempt remaining : Nat) (o : AttemptOutcome)
    (t : RunTrace) : RunTrace :=
  match o with
  | .success => ⟨1, [], .succeeded⟩
  | .fatalFailure => ⟨1, [], .fatalAborted⟩
  | .retryableFailure =>
    ⟨t.attemptsUsed + 1,
     if remaining = 0 then []
     else backoffDelay baseDelay cap (attempt + 1) :: t.delays,
     t.result⟩

/-- Modelled from the spec: the retry loop of section 4.5 starting at
attempt number `attempt` with the given remaining attempt budget.  The
operation is the injected classification predicate applied to each attempt
number. -/
def runFrom (baseDelay cap : Nat) (op : Nat → AttemptOutcome) (attempt : Nat) :
    Nat → RunTrace
  | 0 => ⟨0, [], .exhausted⟩
  | remaining + 1 =>
    retryStep baseDelay cap attempt remaining (op attempt)
      (runFrom baseDelay cap op (attempt + 1) remaining)

/-- Modelled from the spec: `RetryPolicy.Run(operation, maxAttempts,
baseDelay)` of section 4.5 — attempts are numbered from 1. -/
def run (baseDelay cap : Nat) (op : Nat → AttemptOutcome) (maxAttempts : Nat) :
    RunTrace :=
  runFrom baseDelay cap op 1 maxAttempts

end RetryPolicy

namespace ElementLocator

/-- Modelled from the spec: the outcome of `ElementLocator.Resolve`
(section 4.4); the implementation is not part of the repository sources
(only the `selectors` candidate lists are declared, ConfigManager.tsx
lines 52-63). -/
inductive LocateOutcome
  | configurationError
  | found (selector : String)
  | elementNotFound
deriving DecidableEq

/-- Modelled from the spec: try the candidates left to right; `matches`
abstracts one polled existence/interactability check of a candidate against
the live page (up to `perCandidateTimeout`).  Returns how many candidate
checks were performed together with the outcome. -/
def resolveGo (check : String → Bool) : List String → Nat × LocateOutcome
  | [] => (0, .elementNotFound)
  | c :: rest =>
    if check c then (1, .found c)
    else
      let r := resolveGo check rest
      (r.1 + 1, r.2)

/-- Modelled from the spec: `ElementLocator.Resolve` (section 4.4) — an
empty candidate list is a configuration error reported before any browser
interaction (zero candidate checks); otherwise candidates are tried in the
configured order, first success wins. -/
def resolve (check : String → Bool) (candidates : List String) :
    Nat × LocateOutcome :=
  match candidates with
  | [] => (0, .configurationError)
  | c :: rest => resolveGo check (c :: rest)

end ElementLocator

namespace Dashboard

/-- Executing one pending loop iteration: if run `i` is in flight and has a
stage left at its index, the `runStep i` transition is enabled in any state
(the loop never consults `isRunning`), it emits that stage as started, and
it sets the progress to `(completed stages) / (total stages) * 100`. -/
theorem dashStepL_runStep_of_get (s : DashState) (i : Nat) (rl : RunLoop)
    (stage : String) (h1 : s.runs.get? i = some rl)
    (h2 : rl.steps.get? rl.idx = some stage) :
    ∃ t ls, dashStepL s (.runStep i) = some (t, ls) ∧
      ls.head? = some (.stageStarted stage) ∧
      t.progress = ((rl.idx + 1 : ℚ) / (rl.steps.length : ℚ)) * 100 ∧
      (rl.idx + 1 = rl.steps.length → t.progress = 100) := by
  obtain ⟨hlen, -⟩ := List.get?_eq_some.mp h2
  have hcast : ((rl.steps.length : ℚ)) ≠ 0 :=
    Nat.cast_ne_zero.mpr (Nat.pos_iff_ne_zero.mp (Nat.lt_of_le_of_lt (Nat.zero_le _) hlen))
  by_cases hfin : rl.idx + 1 = rl.steps.length
  · simp only [dashStepL, h1, h2]
    rw [if_pos hfin]
    refine ⟨_, _, rfl, rfl, rfl, fun _ => ?_⟩
    show ((rl.idx + 1 : ℚ) / (rl.steps.length : ℚ)) * 100 = 100
    have hq : ((rl.idx : ℚ) + 1) = (rl.steps.length : ℚ) := by exact_mod_cast hfin
    rw [hq, div_self hcast, one_mul]
  · simp only [dashStepL, h1, h2]
    rw [if_neg hfin]
    exact ⟨_, _, rfl, rfl, rfl, fun hc => absurd hc hfin⟩

end Dashboard

namespace Dashboard

/-- C3: for every workflow mode in the six-entry static mode table, starting
a run and letting it proceed uninterrupted executes exactly the stages of
that mode's table entry, in the declared order and nothing else (after the
last listed stage the run is finished: no loop remains in flight), and each
table entry is a non-empty ordered subset of
[Generate Script, Create Video, Upload to YouTube] preserving relative
order. -/
theorem c3_mode_table_exact_stages :
    ∀ mode ∈ workflowModeValues,
      getWorkflowSteps mode ≠ [] ∧
      (getWorkflowSteps mode).Sublist
        ["Generate Script", "Create Video", "Upload to YouTube"] ∧
      (dashTrace initDash (canonicalRun mode)).map
          (fun p => (stageStarts p.2, p.1.runs)) =
        some (getWorkflowSteps mode, []) := by
  decide

/-- Witness for C3 at the mode video_and_upload. -/
theorem c3_mode_table_witness :
    "video_and_upload" ∈ workflowModeValues ∧
    (getWorkflowSteps "video_and_upload" ≠ [] ∧
     (getWorkflowSteps "video_and_upload").Sublist
       ["Generate Script", "Create Video", "Upload to YouTube"] ∧
     (dashTrace initDash (canonicalRun "video_and_upload")).map
         (fun p => (stageStarts p.2, p.1.runs)) =
       some (getWorkflowSteps "video_and_upload", [])) :=
  ⟨by decide, c3_mode_table_exact_stages "video_and_upload" (by decide)⟩

/-- C6: when the in-flight run has completed `rl.idx` of its
`rl.steps.length` stages, executing the next stage emits it as started and
sets the progress to `(completed stages) / (total stages)` as a percentage,
which is exactly 100 after the final stage. -/
theorem c6_progress_percentage (s : DashState) (i : Nat) (rl : RunLoop)
    (stage : String) (h1 : s.runs.get? i = some rl)
    (h2 : rl.steps.get? rl.idx = some stage) :
    ∃ t ls, dashStepL s (.runStep i) = some (t, ls) ∧
      ls.head? = some (.stageStarted stage) ∧
      t.progress = ((rl.idx + 1 : ℚ) / (rl.steps.length : ℚ)) * 100 ∧
      (rl.idx + 1 = rl.steps.length → t.progress = 100) :=
  dashStepL_runStep_of_get s i rl stage h1 h2

/-- Witness for C6: the second of two stages of a script_and_video run. -/
theorem c6_progress_witness :
    ∃ t ls,
      dashStepL
          { initDash with
              isRunning := true
              runs := [⟨["Generate Script", "Create Video"], 1⟩] }
          (.runStep 0) = some (t, ls) ∧
      ls.head? = some (.stageStarted "Create Video") ∧
      t.progress = ((1 + 1 : ℚ) / ((2 : Nat) : ℚ)) * 100 ∧
      (1 + 1 = 2 → t.progress = 100) :=
  c6_progress_percentage _ 0 ⟨["Generate Script", "Create Video"], 1⟩
    "Create Video" rfl rfl

/-- C2 counterexample: a valid execution trace in which a stage start
follows a Stop: start full_auto, let the first loop iteration run, click
Stop, and the suspended loop still executes its next iteration — the second
stage starts after the Stop event. -/
theorem c2_counterexample :
    (dashTrace initDash
        [.startClick "full_auto", .runStep 0, .stopClick, .runStep 0]).map
        (fun p => p.2) =
      some [.started "full_auto", .stageStarted "Generate Script", .stopped,
            .stageStarted "Create Video"] ∧
    (dashTrace initDash
        [.startClick "full_auto", .runStep 0, .stopClick, .runStep 0]).map
        (fun p => hasStageStartAfterStop p.2) = some true := by
  decide

/-- C2 amended: handleStop only clears the UI flags (isRunning, progress,
currentStep); it does not cancel the in-flight loop, whose pending
iterations remain exactly as they were and still execute, so stages may
start after a Stop. -/
theorem c2_stop_does_not_cancel_pending_stages (s : DashState)
    (h : s.isRunning = true) :
    dashStepL s .stopClick =
      some ({ s with isRunning := false, progress := 0, currentStep := "" },
            [.stopped]) ∧
    ∀ i rl stage, s.runs.get? i = some rl →
      rl.steps.get? rl.idx = some stage →
      ∃ t ls,
        dashStepL { s with isRunning := false, progress := 0, currentStep := "" }
            (.runStep i) = some (t, ls) ∧
        ls.head? = some (.stageStarted stage) := by
  constructor
  · simp [dashStepL, h]
  · intro i rl stage h1 h2
    obtain ⟨t, ls, hstep, hhead, -, -⟩ :=
      dashStepL_runStep_of_get
        { s with isRunning := false, progress := 0, currentStep := "" }
        i rl stage h1 h2
    exact ⟨t, ls, hstep, hhead⟩

/-- Witness for C2 amended: a running state with one pending stage; after
Stop, that stage still starts. -/
theorem c2_amended_witness :
    ∃ t ls,
      dashStepL
          { initDash with
              isRunning := false
              progress := 0
              currentStep := ""
              runs := [⟨["Create Video"], 0⟩] }
          (.runStep 0) = some (t, ls) ∧
      ls.head? = some (.stageStarted "Create Video") :=
  (c2_stop_does_not_cancel_pending_stages
      { initDash with
          isRunning := true
          runs := [⟨["Create Video"], 0⟩] }
      rfl).2 0 ⟨["Create Video"], 0⟩ "Create Video" rfl rfl

/-- C7 counterexample: two runs can overlap.  Start a run, click Pause
(which clears isRunning without stopping the loop), and the Start button is
enabled again: a second Start is accepted while the first loop is still in
flight, leaving two loops in flight at once, and both then execute
interleaved. -/
theorem c7_counterexample :
    (dashTrace initDash
        [.startClick "script_only", .pauseClick, .startClick "full_auto"]).map
        (fun p => p.1.runs.length) = some 2 ∧
    (dashTrace initDash
        [.startClick "script_only", .pauseClick, .startClick "full_auto",
         .runStep 1, .runStep 0]).map (fun p => stageStarts p.2) =
      some ["Generate Script", "Generate Script"] := by
  decide

/-- C7 amended: while isRunning is true the Start action is disabled, so no
start can occur in such a state; two runs can nevertheless overlap because
Pause and Stop clear isRunning while a loop is still in flight. -/
theorem c7_start_disabled_while_running (s : DashState) (m : String)
    (h : s.isRunning = true) :
    dashStepL s (.startClick m) = none := by
  simp [dashStepL, h]

/-- Witness for C7 amended: in a running state the Start click is refused. -/
theorem c7_amended_witness :
    dashStepL { initDash with isRunning := true } (.startClick "full_auto") =
      none :=
  c7_start_disabled_while_running
    { initDash with isRunning := true } "full_auto" rfl

end Dashboard

namespace UploadManager

/-- C1 counterexample: with the seeded history (which already contains a
record titled AI Productivity Tips) and a validated upload request for that
same key, handleUpload appends a second record for the key instead of
short-circuiting: there is no duplicate check anywhere in handleUpload. -/
theorem c1_counterexample :
    (initialUploadedVideos.countP
        (fun v => v.title == "AI Productivity Tips")) = 1 ∧
    ((handleUpload "999" "2024-01-20 10:00" "Sat Jan 20 2024"
        ⟨some "clip.mp4",
         ⟨"AI Productivity Tips", "", "", "public", "Entertainment", none⟩,
         ⟨true, "06:00", "Asia/Cairo", true, true⟩,
         false, 0, initialUploadedVideos⟩).uploadedVideos.countP
        (fun v => v.title == "AI Productivity Tips")) = 2 := by
  decide

/-- C1 amended: handleUpload performs no idempotence check against the
upload history: whenever validation passes (a file is selected and the
trimmed title is non-empty) it prepends exactly one new record carrying the
form title, whether or not that key already appears in the history; no
duplicate-skipped outcome exists in the code. -/
theorem c1_upload_appends_unconditionally (nowMs nowStr dateStr : String)
    (s : UploadState) (hf : s.videoFile ≠ none)
    (ht : jsTrim s.uploadDetails.title ≠ "") :
    ∃ r : UploadedVideo,
      (handleUpload nowMs nowStr dateStr s).uploadedVideos =
        r :: s.uploadedVideos ∧
      r.title = s.uploadDetails.title := by
  unfold handleUpload
  rw [if_neg hf, if_neg ht]
  exact ⟨_, rfl, rfl⟩

/-- Witness for C1 amended, at a history that already holds the key. -/
theorem c1_amended_witness :
    ∃ r : UploadedVideo,
      (handleUpload "999" "2024-01-20 10:00" "Sat Jan 20 2024"
          ⟨some "clip.mp4",
           ⟨"AI Productivity Tips", "", "", "public", "Entertainment", none⟩,
           ⟨true, "06:00", "Asia/Cairo", true, true⟩,
           false, 0, initialUploadedVideos⟩).uploadedVideos =
        r ::
          (⟨some "clip.mp4",
            ⟨"AI Productivity Tips", "", "", "public", "Entertainment", none⟩,
            ⟨true, "06:00", "Asia/Cairo", true, true⟩,
            false, 0, initialUploadedVideos⟩ : UploadState).uploadedVideos ∧
      r.title =
        (⟨some "clip.mp4",
          ⟨"AI Productivity Tips", "", "", "public", "Entertainment", none⟩,
          ⟨true, "06:00", "Asia/Cairo", true, true⟩,
          false, 0, initialUploadedVideos⟩ : UploadState).uploadDetails.title :=
  c1_upload_appends_unconditionally "999" "2024-01-20 10:00" "Sat Jan 20 2024"
    _ (by decide) (by decide)

/-- C9: upload validation failure is atomic — if no video file is selected
or the title is blank after trimming, handleUpload returns the state
entirely unchanged: no history entry, no progress change, no isUploading
change, no form reset. -/
theorem c9_validation_failure_atomic (nowMs nowStr dateStr : String)
    (s : UploadState)
    (h : s.videoFile = none ∨ jsTrim s.uploadDetails.title = "") :
    handleUpload nowMs nowStr dateStr s = s := by
  unfold handleUpload
  rcases h with h | h
  · rw [if_pos h]
  · by_cases hf : s.videoFile = none
    · rw [if_pos hf]
    · rw [if_neg hf, if_pos h]

/-- Witness for C9: a file is selected but the title is only whitespace. -/
theorem c9_validation_witness :
    handleUpload "7" "now" "today"
        ⟨some "clip.mp4", ⟨"   ", "d", "t", "public", "Entertainment", none⟩,
         ⟨false, "06:00", "Asia/Cairo", true, true⟩,
         false, 0, initialUploadedVideos⟩ =
      ⟨some "clip.mp4", ⟨"   ", "d", "t", "public", "Entertainment", none⟩,
       ⟨false, "06:00", "Asia/Cairo", true, true⟩,
       false, 0, initialUploadedVideos⟩ :=
  c9_validation_failure_atomic "7" "now" "today" _ (Or.inr (by decide))

end UploadManager

namespace Dashboard

/-- C10: the success-rate computation is total and division-safe: for all
counter values it equals the rounded percentage uploaded/created when
videosCreated is positive, and equals 0 when videosCreated is zero, the
guard making the division unreachable in that case. -/
theorem c10_success_rate_total (c u : Nat) :
    (0 < c → successRate c u = round (((u : ℚ) * 100) / (c : ℚ))) ∧
    (c = 0 → successRate c u = 0) := by
  constructor
  · intro h
    unfold successRate
    rw [if_pos h, div_mul_eq_mul_div]
  · intro h
    subst h
    unfold successRate
    norm_num

/-- Witness for C10 at both branches. -/
theorem c10_success_rate_witness :
    successRate 3 2 = round ((((2 : Nat) : ℚ) * 100) / ((3 : Nat) : ℚ)) ∧
    successRate 0 5 = 0 :=
  ⟨(c10_success_rate_total 3 2).1 (by norm_num),
   (c10_success_rate_total 0 5).2 rfl⟩

end Dashboard

namespace ScriptGenerator

/-- One keyword interaction preserves distinctness of the keyword list. -/
theorem keywordStep_nodup (ks : List String) (op : KeywordOp)
    (h : ks.Nodup) : (keywordStep ks op).Nodup := by
  cases op with
  | add s =>
    show (handleAddKeyword ks s).Nodup
    unfold handleAddKeyword
    split
    next hc =>
      refine List.Nodup.append h (List.nodup_singleton _) ?_
      intro a ha hb
      rw [List.mem_singleton] at hb
      subst hb
      exact hc.2 ha
    next => exact h
  | remove s =>
    show (handleRemoveKeyword ks s).Nodup
    unfold handleRemoveKeyword
    exact h.filter _

/-- Folding keyword interactions from a distinct list stays distinct. -/
theorem foldl_keywordStep_nodup (ops : List KeywordOp) :
    ∀ ks : List String, ks.Nodup → (ops.foldl keywordStep ks).Nodup := by
  induction ops with
  | nil => exact fun ks h => h
  | cons op rest ih =>
    exact fun ks h => ih _ (keywordStep_nodup ks op h)

/-- C8: the keyword collection is an ordered set.  After any sequence of
add/remove interactions from the empty initial list: the list has no
duplicates; adding an already-present keyword or a blank keyword leaves it
unchanged; removal keeps the surviving elements in their relative order (the
result is a sublist); and adding extends the list at the end, keeping the
existing insertion order (the old list is a sublist of the new). -/
theorem c8_keywords_ordered_set (ops : List KeywordOp) :
    (applyKeywordOps ops).Nodup ∧
    (∀ k, jsTrim k ∈ applyKeywordOps ops →
      handleAddKeyword (applyKeywordOps ops) k = applyKeywordOps ops) ∧
    (∀ k, jsTrim k = "" →
      handleAddKeyword (applyKeywordOps ops) k = applyKeywordOps ops) ∧
    (∀ k, (handleRemoveKeyword (applyKeywordOps ops) k).Sublist
      (applyKeywordOps ops)) ∧
    (∀ k, (applyKeywordOps ops).Sublist
      (handleAddKeyword (applyKeywordOps ops) k)) := by
  refine ⟨foldl_keywordStep_nodup ops [] List.nodup_nil, ?_, ?_, ?_, ?_⟩
  · intro k hk
    unfold handleAddKeyword
    rw [if_neg (fun hc => hc.2 hk)]
  · intro k hk
    unfold handleAddKeyword
    rw [if_neg (fun hc => hc.1 hk)]
  · intro k
    exact List.filter_sublist _
  · intro k
    unfold handleAddKeyword
    split
    · exact List.sublist_append_left _ _
    · exact List.Sublist.refl _

/-- Witness for C8 on a concrete interaction sequence: the result is
duplicate-free and re-adding a present keyword changes nothing. -/
theorem c8_keywords_witness :
    (applyKeywordOps
        [.add " AI ", .add "AI", .add "", .add "tech", .remove "AI"]).Nodup ∧
    handleAddKeyword
        (applyKeywordOps
          [.add " AI ", .add "AI", .add "", .add "tech", .remove "AI"])
        "tech" =
      applyKeywordOps
        [.add " AI ", .add "AI", .add "", .add "tech", .remove "AI"] :=
  ⟨(c8_keywords_ordered_set
      [.add " AI ", .add "AI", .add "", .add "tech", .remove "AI"]).1,
   (c8_keywords_ordered_set
      [.add " AI ", .add "AI", .add "", .add "tech", .remove "AI"]).2.1
     "tech" (by decide)⟩

end ScriptGenerator

namespace RetryPolicy

/-- One unfolding of the retry loop at positive budget. -/
theorem runFrom_succ_eq (b c : Nat) (op : Nat → AttemptOutcome) (a m : Nat) :
    runFrom b c op a (m + 1) =
      retryStep b c a m (op a) (runFrom b c op (a + 1) m) :=
  rfl

/-- The retry loop never performs more attempts than its budget. -/
theorem runFrom_attempts_le (b c : Nat) (op : Nat → AttemptOutcome) :
    ∀ n a : Nat, (runFrom b c op a n).attemptsUsed ≤ n := by
  intro n
  induction n with
  | zero => intro a; exact Nat.le_refl 0
  | succ m ih =>
    intro a
    rw [runFrom_succ_eq]
    cases hop : op a with
    | success =>
      exact Nat.succ_le_succ (Nat.zero_le m)
    | fatalFailure =>
      exact Nat.succ_le_succ (Nat.zero_le m)
    | retryableFailure =>
      show (runFrom b c op (a + 1) m).attemptsUsed + 1 ≤ m + 1
      exact Nat.succ_le_succ (ih (a + 1))

/-- A run with at least one attempt of budget performs at least one. -/
theorem runFrom_attempts_pos (b c : Nat) (op : Nat → AttemptOutcome)
    (a m : Nat) : 1 ≤ (runFrom b c op a (m + 1)).attemptsUsed := by
  rw [runFrom_succ_eq]
  cases hop : op a with
  | success => exact Nat.le_refl 1
  | fatalFailure => exact Nat.le_refl 1
  | retryableFailure =>
    show 1 ≤ (runFrom b c op (a + 1) m).attemptsUsed + 1
    exact Nat.succ_le_succ (Nat.zero_le _)

/-- A fatal classification at attempt `a + d`, after `d` retryable failures,
aborts the run right there: `d + 1` attempts in total. -/
theorem runFrom_fatal (b c : Nat) (op : Nat → AttemptOutcome) :
    ∀ d n a : Nat, (∀ j, j < d → op (a + j) = .retryableFailure) →
      op (a + d) = .fatalFailure → d < n →
      (runFrom b c op a n).result = .fatalAborted ∧
      (runFrom b c op a n).attemptsUsed = d + 1 := by
  intro d
  induction d with
  | zero =>
    intro n a hall hfat hlt
    obtain ⟨m, rfl⟩ : ∃ m, n = m + 1 :=
      ⟨n - 1, (Nat.succ_pred_eq_of_pos hlt).symm⟩
    have hopa : op a = .fatalFailure := by simpa using hfat
    rw [runFrom_succ_eq, hopa]
    exact ⟨rfl, rfl⟩
  | succ e ih =>
    intro n a hall hfat hlt
    have hn : 0 < n := Nat.lt_of_le_of_lt (Nat.zero_le _) hlt
    obtain ⟨m, rfl⟩ : ∃ m, n = m + 1 :=
      ⟨n - 1, (Nat.succ_pred_eq_of_pos hn).symm⟩
    have hopa : op a = .retryableFailure := by
      have h0 := hall 0 (Nat.succ_pos e)
      simpa using h0
    have hall2 : ∀ j, j < e → op (a + 1 + j) = .retryableFailure := by
      intro j hj
      have hstep := hall (j + 1) (Nat.succ_lt_succ hj)
      have harg : a + (j + 1) = a + 1 + j := by omega
      rw [harg] at hstep
      exact hstep
    have hfat2 : op (a + 1 + e) = .fatalFailure := by
      have harg : a + (e + 1) = a + 1 + e := by omega
      rw [harg] at hfat
      exact hfat
    have hlt2 : e < m := by omega
    obtain ⟨hres, hatt⟩ := ih m (a + 1) hall2 hfat2 hlt2
    rw [runFrom_succ_eq, hopa]
    constructor
    · show (runFrom b c op (a + 1) m).result = .fatalAborted
      exact hres
    · show (runFrom b c op (a + 1) m).attemptsUsed + 1 = e + 1 + 1
      rw [hatt]

/-- The delays a run sleeps are exactly the capped exponential backoffs of
the retry attempts it reached, in order. -/
theorem runFrom_delays (b c : Nat) (op : Nat → AttemptOutcome) :
    ∀ n a : Nat,
      (runFrom b c op a n).delays =
        (List.range ((runFrom b c op a n).attemptsUsed - 1)).map
          (fun i => backoffDelay b c (a + 1 + i)) := by
  intro n
  induction n with
  | zero => intro a; rfl
  | succ m ih =>
    intro a
    rw [runFrom_succ_eq]
    cases hop : op a with
    | success => rfl
    | fatalFailure => rfl
    | retryableFailure =>
      cases m with
      | zero => rfl
      | succ r =>
        show (if r + 1 = 0 then []
            else backoffDelay b c (a + 1) ::
              (runFrom b c op (a + 1) (r + 1)).delays) =
          (List.range ((runFrom b c op (a + 1) (r + 1)).attemptsUsed + 1 - 1)).map
            (fun i => backoffDelay b c (a + 1 + i))
        rw [if_neg (Nat.succ_ne_zero r)]
        obtain ⟨k, hk⟩ :
            ∃ k, (runFrom b c op (a + 1) (r + 1)).attemptsUsed = k + 1 :=
          ⟨(runFrom b c op (a + 1) (r + 1)).attemptsUsed - 1,
           (Nat.succ_pred_eq_of_pos (runFrom_attempts_pos b c op (a + 1) r)).symm⟩
        rw [ih (a + 1), hk]
        simp only [Nat.add_sub_cancel, List.range_succ_eq_map, List.map_cons,
          List.map_map]
        have hfn : List.map (fun i => backoffDelay b c (a + 1 + 1 + i))
              (List.range k) =
            List.map ((fun i => backoffDelay b c (a + 1 + i)) ∘ Nat.succ)
              (List.range k) := by
          refine List.map_congr_left ?_
          intro i _
          show backoffDelay b c (a + 1 + 1 + i) =
            backoffDelay b c (a + 1 + (i + 1))
          exact congrArg (backoffDelay b c) (by omega)
        rw [hfn]

/-- C4: for every budget k, RetryPolicy.Run performs at most k attempts; a
fatal classification at attempt a (after only retryable failures before it)
aborts right there, with zero further attempts spent; and the delay before
retry attempt number a (the i-th delay, a = i + 2) is
baseDelay * 2 ^ (a - 1), capped. -/
theorem c4_retry_policy (b c : Nat) (op : Nat → AttemptOutcome) (k : Nat) :
    ((RetryPolicy.run b c op k).attemptsUsed ≤ k) ∧
    (∀ a, 1 ≤ a → a ≤ k →
      (∀ j, j < a → 1 ≤ j → op j = .retryableFailure) →
      op a = .fatalFailure →
      (RetryPolicy.run b c op k).result = .fatalAborted ∧
      (RetryPolicy.run b c op k).attemptsUsed = a) ∧
    ((RetryPolicy.run b c op k).delays =
      (List.range ((RetryPolicy.run b c op k).attemptsUsed - 1)).map
        (fun i => min (b * 2 ^ (i + 2 - 1)) c)) := by
  refine ⟨runFrom_attempts_le b c op k 1, ?_, ?_⟩
  · intro a ha hak hall hfat
    have hall2 : ∀ j, j < a - 1 → op (1 + j) = .retryableFailure := by
      intro j hj
      exact hall (1 + j) (by omega) (by omega)
    have hfat2 : op (1 + (a - 1)) = .fatalFailure := by
      have harg : 1 + (a - 1) = a := by omega
      rw [harg]
      exact hfat
    have hlt : a - 1 < k := by omega
    obtain ⟨hres, hatt⟩ := runFrom_fatal b c op (a - 1) k 1 hall2 hfat2 hlt
    refine ⟨hres, ?_⟩
    show (runFrom b c op 1 k).attemptsUsed = a
    rw [hatt]
    omega
  · rw [RetryPolicy.run, runFrom_delays b c op k 1]
    refine List.map_congr_left ?_
    intro i _
    show backoffDelay b c (1 + 1 + i) = min (b * 2 ^ (i + 2 - 1)) c
    unfold backoffDelay
    have harg : 1 + 1 + i - 1 = i + 2 - 1 := by omega
    rw [harg]

/-- Witness for C4: two retryable failures then a fatal one, budget five:
the run aborts fatally after exactly three attempts. -/
theorem c4_retry_witness :
    (RetryPolicy.run 1 10
        (fun j => if j < 3 then .retryableFailure else .fatalFailure)
        5).result = .fatalAborted ∧
    (RetryPolicy.run 1 10
        (fun j => if j < 3 then .retryableFailure else .fatalFailure)
        5).attemptsUsed = 3 :=
  (c4_retry_policy 1 10
      (fun j => if j < 3 then .retryableFailure else .fatalFailure) 5).2.1
    3 (by decide) (by decide) (by decide) (by decide)

end RetryPolicy

namespace ElementLocator

/-- The locator never checks more candidates than the list holds. -/
theorem resolveGo_checks_le (check : String → Bool) :
    ∀ l : List String, (resolveGo check l).1 ≤ l.length := by
  intro l
  induction l with
  | nil => exact Nat.le_refl 0
  | cons hd rest ih =>
    show (resolveGo check (hd :: rest)).1 ≤ rest.length + 1
    unfold resolveGo
    by_cases hm : check hd
    · rw [if_pos hm]
      exact Nat.succ_le_succ (Nat.zero_le _)
    · rw [if_neg hm]
      show (resolveGo check rest).1 + 1 ≤ rest.length + 1
      exact Nat.succ_le_succ ih

/-- If candidate number i is the first that matches, the locator returns it
after exactly i + 1 checks: later candidates are never tried. -/
theorem resolveGo_first_match (check : String → Bool) :
    ∀ (l : List String) (i : Nat) (cc : String),
      l.get? i = some cc → check cc = true →
      (l.take i).all (fun d => !(check d)) = true →
      resolveGo check l = (i + 1, .found cc) := by
  intro l
  induction l with
  | nil =>
    intro i cc hget
    simp at hget
  | cons hd rest ih =>
    intro i cc hget hc hall
    cases i with
    | zero =>
      have hcc : hd = cc := by simpa using hget
      subst hcc
      unfold resolveGo
      rw [if_pos hc]
    | succ j =>
      rw [List.take_succ_cons, List.all_cons, Bool.and_eq_true] at hall
      have hhd : check hd = false := by
        have := hall.1
        simpa using this
      unfold resolveGo
      rw [if_neg (by simp [hhd])]
      show ((resolveGo check rest).1 + 1, (resolveGo check rest).2) =
        (j + 1 + 1, .found cc)
      rw [ih j cc (by simpa using hget) hc hall.2]

/-- C5: resolution checks at most as many candidates as the list holds, in
the configured order; the first matching candidate is returned after
exactly that many checks with no later candidate tried; and the empty
candidate list is a configuration error with zero candidate checks, hence
before any browser interaction. -/
theorem c5_element_locator (check : String → Bool) (candidates : List String) :
    ((resolve check candidates).1 ≤ candidates.length) ∧
    (candidates = [] → resolve check candidates = (0, .configurationError)) ∧
    (∀ i cc, candidates.get? i = some cc → check cc = true →
      (candidates.take i).all (fun d => !(check d)) = true →
      resolve check candidates = (i + 1, .found cc)) := by
  refine ⟨?_, ?_, ?_⟩
  · cases candidates with
    | nil => exact Nat.le_refl 0
    | cons hd rest =>
      show (resolveGo check (hd :: rest)).1 ≤ (hd :: rest).length
      exact resolveGo_checks_le check _
  · intro h
    subst h
    rfl
  · intro i cc hget hc hall
    cases candidates with
    | nil => simp at hget
    | cons hd rest =>
      show resolveGo check (hd :: rest) = (i + 1, .found cc)
      exact resolveGo_first_match check (hd :: rest) i cc hget hc hall

/-- Witness for C5: the generate-button scenario of the spec — the page
only exposes the second candidate, so resolution succeeds on it after two
checks. -/
theorem c5_element_locator_witness :
    resolve (fun s => s == ".generate-btn") ["#generate", ".generate-btn"] =
      (2, .found ".generate-btn") :=
  (c5_element_locator (fun s => s == ".generate-btn")
      ["#generate", ".generate-btn"]).2.2 1 ".generate-btn"
    rfl (by decide) (by decide)

end ElementLocator
